import Mathlib

/-!
Verification development for the DownloadAllOfIt repository.

This file gives a shallow embedding, in Lean, of the parts of the
repository that the specification's claims are about:

* `utils.clean_filename`            — the filename sanitizer;
* `DownloadThread.run`              — the batch download loop (URL
  resolution step and per-video download step);
* `YTDownloadManager.download_video` — the executor's download step with
  its idempotency ledger (`downloaded_files`).

Python effects are made explicit: the sanitizer's unbound-name failure is
an explicit `PyResult.nameError` value, the stop flag polled by the worker
thread is a function of the poll site, and filesystem / network behaviour
observed by the code is passed in as parameters (ledger contents, whether
the output file exists, what the extraction engine returns).
-/

/-! ## Filename sanitizer (`utils.py`, `clean_filename`, lines 186-233)

The body of `clean_filename` computes a sanitized string and then, for
every non-empty input, evaluates the name `output_dir` (line 226), which
is bound nowhere in the module; in Python this raises `NameError` before
the function can return.  We embed the pure sanitization pipeline
(lines 196-223) as `sanitizePipeline` and the whole function, with its
failure, as `clean_filename`. -/

/-- Characters matched by the regex `[<>:"/\\|?*\x00-\x1F]` on line 199 of
`utils.py`; each occurrence is replaced by `_`. -/
def isInvalidChar (c : Char) : Bool :=
  c = '<' || c = '>' || c = ':' || c = '\"' || c = '/' || c = '\\' ||
  c = '|' || c = '?' || c = '*' || c.val ≤ 0x1F

/-- The `re.sub(invalid_pattern, '_', filename)` step (line 200). -/
def replaceInvalid (s : String) : String :=
  ⟨s.toList.map fun c => if isInvalidChar c then '_' else c⟩

/-- Characters stripped by Python's `str.strip()` with no argument
(the `Py_UNICODE_ISSPACE` set). -/
def pyIsSpace (c : Char) : Bool :=
  let v := c.val
  v = 0x09 || v = 0x0a || v = 0x0b || v = 0x0c || v = 0x0d ||
  (0x1c ≤ v && v ≤ 0x1f) || v = 0x20 || v = 0x85 || v = 0xa0 ||
  v = 0x1680 || (0x2000 ≤ v && v ≤ 0x200a) ||
  v = 0x2028 || v = 0x2029 || v = 0x202f || v = 0x205f || v = 0x3000

/-- Python's `str.strip` applied to a character class: drop matching
characters from both ends of the string. -/
def pyStrip (p : Char → Bool) (s : String) : String :=
  ⟨((s.toList.dropWhile p).reverse.dropWhile p).reverse⟩

/-- Index of the last `.` in a character list, if any. -/
def lastDotIdx (cs : List Char) : Option Nat :=
  cs.enum.foldl (fun acc ic => if ic.2 = '.' then some ic.1 else acc) none

/-- Python `pathlib.Path(s).suffix` for a plain file name (the sanitized
string contains no path separators, since `/`, `\` and `:` were replaced):
the part from the last dot, provided that dot is neither the first nor the
last character; otherwise the empty string. -/
def pySuffix (s : String) : String :=
  let cs := s.toList
  match lastDotIdx cs with
  | some i => if 0 < i && i + 1 < cs.length then ⟨cs.drop i⟩ else ""
  | none => ""

/-- Python `pathlib.Path(s).stem` under the same conventions as
`pySuffix`. -/
def pyStem (s : String) : String :=
  let cs := s.toList
  match lastDotIdx cs with
  | some i => if 0 < i && i + 1 < cs.length then ⟨cs.take i⟩ else s
  | none => s

/-- Python slicing `s[:k]` where `k` may be negative: a negative bound
counts from the end of the string and clamps at zero. -/
def pySliceTo (s : String) (k : Int) : String :=
  s.take (if k < 0 then ((s.length : Int) + k).toNat else k.toNat)

/-- Python `str.upper()` restricted to ASCII letters, which is all the
reserved-name comparison on line 221 can distinguish. -/
def pyUpper (s : String) : String :=
  ⟨s.toList.map Char.toUpper⟩

/-- The `reserved_names` list of `utils.py` lines 215-219. -/
def reservedNames : List String :=
  ["CON", "PRN", "AUX", "NUL",
   "COM1", "COM2", "COM3", "COM4", "COM5", "COM6", "COM7", "COM8", "COM9",
   "LPT1", "LPT2", "LPT3", "LPT4", "LPT5", "LPT6", "LPT7", "LPT8", "LPT9"]

/-- The pure sanitization pipeline of `clean_filename`, lines 198-223 of
`utils.py`: replace invalid characters, strip whitespace then dots,
truncate to 255 keeping the suffix (with Python's negative-slice
semantics), and prefix `_` when the stem is a reserved device name.  This
is the value the local variable `sanitized` holds when control reaches
line 226. -/
def sanitizePipeline (filename : String) : String :=
  let s1 := replaceInvalid filename
  let s2 := pyStrip pyIsSpace s1
  let s3 := pyStrip (fun c => c = '.') s2
  let s4 :=
    if 255 < s3.length then
      pySliceTo (pyStem s3) ((255 : Int) - ((pySuffix s3).length : Int)) ++ pySuffix s3
    else s3
  if reservedNames.contains (pyUpper (pyStem s4)) then "_" ++ s4 else s4

/-- Result of evaluating a Python function call: a returned value or a
raised exception. -/
inductive PyResult where
  | ok (value : String)
  | nameError (missing : String)
  | typeError (msg : String)
deriving DecidableEq, Repr

/-- The whole of `clean_filename` (lines 186-233): the empty string
returns the fallback at line 197; every other input computes `sanitized`
and then evaluates the unbound module name `output_dir` on line 226,
raising `NameError`. -/
def clean_filename (filename : String) : PyResult :=
  if filename = "" then .ok "unknown_file"
  else
    let _sanitized := sanitizePipeline filename
    .nameError "output_dir"

/-- Calling `clean_filename` with a Python argument list.  The function
declares exactly one parameter, so any other arity raises `TypeError`
before the body runs. -/
def clean_filename_apply : List String → PyResult
  | [f] => clean_filename f
  | _ => .typeError "clean_filename() takes 1 positional argument"

/-- The repository's call sites of `utils.clean_filename`, with the
number of arguments each passes: `download_thread.py` line 339 passes two
(`clean_filename(info_dict.get('title', 'Unknown_Title'), final_folder)`);
`gui_interface.py` lines 515, 580 and 642 each pass one. -/
def clean_filename_call_sites : List (String × Nat) :=
  [("download_thread.py:339", 2),
   ("gui_interface.py:515", 1),
   ("gui_interface.py:580", 1),
   ("gui_interface.py:642", 1)]

/-- Input exhibiting the truncation slip: a one-character stem with a
300-character extension. -/
def longSuffixInput : String := "a." ++ ⟨List.replicate 300 'b'⟩

/-- Input exhibiting the reserved-name prefix overrunning the length
bound: a reserved stem with a 251-character extension, 255 characters in
all. -/
def reservedLongInput : String := "CON." ++ ⟨List.replicate 251 'b'⟩

/-! ### Claims about the sanitizer -/

/-- Counterexample to C1 as stated: `download_thread.py:339` is not the
repository's only call site of `clean_filename` — `gui_interface.py:515`
(and lines 580 and 642) call it with a single argument, and such a call
does not raise `TypeError`: with the non-empty argument
`"Unknown_Channel"` it reaches the unbound name and raises `NameError`
instead. -/
theorem clean_filename_single_arg_call_counterexample :
    ("gui_interface.py:515", 1) ∈ clean_filename_call_sites ∧
    clean_filename_call_sites.length = 4 ∧
    clean_filename_apply ["Unknown_Channel"] = PyResult.nameError "output_dir" ∧
    clean_filename_apply ["Unknown_Channel"]
      ≠ PyResult.typeError "clean_filename() takes 1 positional argument" := by
  decide

/-- C1 as amended.  For every non-empty input string `clean_filename`
raises `NameError` on the unbound name `output_dir` before returning any
value; hence a one-argument call — the form used at the three
`gui_interface.py` call sites — raises `NameError` for non-empty input,
while the two-argument call at `download_thread.py:339` raises
`TypeError` before the body runs.  Every call site in the repository
passes one or two arguments, so the sanitizer never successfully returns
for non-empty input through any of them. -/
theorem clean_filename_never_returns_amended (s : String) (h : s ≠ "") :
    clean_filename s = PyResult.nameError "output_dir" ∧
    clean_filename_apply [s] = PyResult.nameError "output_dir" ∧
    (∀ t d : String,
      clean_filename_apply [t, d] =
        PyResult.typeError "clean_filename() takes 1 positional argument") ∧
    ∀ cs ∈ clean_filename_call_sites, cs.2 = 1 ∨ cs.2 = 2 := by
  have h1 : clean_filename s = PyResult.nameError "output_dir" := by
    simp [clean_filename, h]
  exact ⟨h1, h1, fun t d => rfl, by decide⟩

/-- Witness for the amended C1 at the concrete input `"a"`. -/
theorem clean_filename_never_returns_amended_witness :
    clean_filename "a" = PyResult.nameError "output_dir" ∧
    clean_filename_apply ["a"] = PyResult.nameError "output_dir" ∧
    clean_filename_apply ["a", "dir"]
      = PyResult.typeError "clean_filename() takes 1 positional argument" := by
  have h := clean_filename_never_returns_amended "a" (by decide)
  exact ⟨h.1, h.2.1, h.2.2.1 "a" "dir"⟩

set_option maxRecDepth 40000 in
/-- C5 is violated by the code: the sanitized value computed from the
input `"a."` followed by 300 `b`s has length 301 (the truncation step
`path.stem[:255 - len(path.suffix)]` empties the stem with a negative
slice and keeps the 301-character suffix whole), and the input `"CON."`
followed by 251 `b`s (255 characters) gains a `_` prefix after the length
check, ending at 256 characters.  Both exceed the claimed 255 bound. -/
theorem sanitize_length_bound_violated :
    255 < (sanitizePipeline longSuffixInput).length ∧
    (sanitizePipeline longSuffixInput).length = 301 ∧
    (sanitizePipeline reservedLongInput).length = 256 := by
  decide

/-- Counterexample to C6: for the input `"."` — which consists only of
characters removed by sanitization — the sanitizer does not return the
fallback `unknown_file`; the sanitized value is the empty string, and the
function itself raises `NameError` rather than returning at all. -/
theorem clean_filename_fallback_counterexample :
    clean_filename "." ≠ PyResult.ok "unknown_file" ∧
    sanitizePipeline "." = "" := by
  decide

/-- Mapping a function that fixes every element of a list leaves the
list unchanged. -/
theorem map_eq_self_of_fixed {α : Type} {f : α → α} :
    ∀ cs : List α, (∀ c ∈ cs, f c = c) → cs.map f = cs := by
  intro cs
  induction cs with
  | nil => intro; rfl
  | cons c t ih =>
    intro h
    rw [List.map_cons, h c (by simp), ih (fun x hx => h x (by simp [hx]))]

/-- `dropWhile` drops nothing when the predicate fails on every
element. -/
theorem dropWhile_eq_self_of_none {α : Type} {p : α → Bool} :
    ∀ cs : List α, (∀ c ∈ cs, p c = false) → cs.dropWhile p = cs := by
  intro cs h
  cases cs with
  | nil => rfl
  | cons c t => simp [List.dropWhile_cons, h c (by simp)]

/-- `dropWhile` drops everything when the predicate holds on every
element. -/
theorem dropWhile_eq_nil_of_all {α : Type} {p : α → Bool} :
    ∀ cs : List α, (∀ c ∈ cs, p c = true) → cs.dropWhile p = [] := by
  intro cs
  induction cs with
  | nil => intro; rfl
  | cons c t ih =>
    intro h
    simp [List.dropWhile_cons, h c (by simp), ih (fun x hx => h x (by simp [hx]))]

/-- A strip pass over a string none of whose characters match is the
identity. -/
theorem pyStrip_eq_self (p : Char → Bool) (s : String)
    (h : ∀ c ∈ s.toList, p c = false) : pyStrip p s = s := by
  unfold pyStrip
  rw [dropWhile_eq_self_of_none _ h,
      dropWhile_eq_self_of_none _ (fun c hc => h c (List.mem_reverse.mp hc)),
      List.reverse_reverse]
  rfl

/-- A strip pass over a string all of whose characters match empties
it. -/
theorem pyStrip_eq_empty_of_all (p : Char → Bool) (s : String)
    (h : ∀ c ∈ s.toList, p c = true) : pyStrip p s = "" := by
  unfold pyStrip
  rw [dropWhile_eq_nil_of_all _ h]
  rfl

/-- Every input consisting solely of dots sanitizes to the empty string:
dots are not invalid characters and not whitespace, so they survive the
first two steps whole and the dot-strip pass then removes them all. -/
theorem sanitizePipeline_all_dots (s : String) (h : ∀ c ∈ s.toList, c = '.') :
    sanitizePipeline s = "" := by
  have h1 : replaceInvalid s = s := by
    unfold replaceInvalid
    rw [map_eq_self_of_fixed _ (fun c hc => by rw [h c hc]; rfl)]
    rfl
  have h2 : pyStrip pyIsSpace s = s :=
    pyStrip_eq_self _ s (fun c hc => by rw [h c hc]; rfl)
  have h3 : pyStrip (fun c => c = '.') s = "" :=
    pyStrip_eq_empty_of_all _ s (fun c hc => by rw [h c hc]; rfl)
  simp only [sanitizePipeline]
  rw [h1, h2, h3]
  decide

/-- C6 as amended: the fallback branch fires exactly for the empty input.
`clean_filename ""` returns `unknown_file`; every non-empty input raises
`NameError` instead of returning, so in particular it never returns the
fallback (nor the empty string).  At the level of the sanitized value
computed before that failure, an input consisting solely of dots
sanitizes to the empty string, an input mixing dots and whitespace can
sanitize to bare whitespace (`". ."` yields `" "`, since the single
whitespace pass runs before the single dot pass), and an input of only
invalid characters sanitizes to underscores — never to the fallback
name. -/
theorem clean_filename_fallback_only_empty :
    clean_filename "" = PyResult.ok "unknown_file" ∧
    (∀ s : String, s ≠ "" → clean_filename s ≠ PyResult.ok "unknown_file") ∧
    (∀ s : String, (∀ c ∈ s.toList, c = '.') → sanitizePipeline s = "") ∧
    sanitizePipeline ". ." = " " ∧
    sanitizePipeline "<><>" = "____" := by
  refine ⟨by decide, ?_, sanitizePipeline_all_dots, by decide, by decide⟩
  intro s hs
  simp [clean_filename, hs]

/-- Witness for the amended C6: the non-empty input `"x"` does not
produce the fallback, and the all-dots input `"..."` sanitizes to the
empty string. -/
theorem clean_filename_fallback_only_empty_witness :
    clean_filename "x" ≠ PyResult.ok "unknown_file" ∧
    sanitizePipeline "..." = "" := by
  have h := clean_filename_fallback_only_empty
  exact ⟨h.2.1 "x" (by decide), h.2.2.1 "..." (by decide)⟩

/-! ## Download executor (`yt_download_manager.py`, `download_video`,
lines 160-338) and the idempotency ledger (`downloaded_files`)

The ledger is the dict `self.downloaded_files`, loaded from
`downloaded_files.json` and written back by `save_downloaded_file`
(lines 45-50).  `download_video` first computes
`output_file_path = output_template % {"ext": "mp4"}` (line 170), skips
when the URL is recorded in the ledger or the output file exists
(line 178), and otherwise runs the engine: a `DownloadCancelled` raised by
the engine is caught and merely logged (lines 331-332) — control then
falls through to `save_downloaded_file` on line 338 — while any other
exception is re-raised (line 335), so the ledger write is not reached.
The filesystem check `Path(output_file_path).exists()` is passed in as a
boolean, and the engine's behaviour as an `EngineBehavior` value. -/

/-- Substitution of the single conversion `%(ext)s` by `mp4`, the effect
of `output_template % {"ext": "mp4"}` on line 170 for the templates this
program builds. -/
def substExtMp4 : List Char → List Char
  | '%' :: '(' :: 'e' :: 'x' :: 't' :: ')' :: 's' :: rest => 'm' :: 'p' :: '4' :: substExtMp4 rest
  | c :: rest => c :: substExtMp4 rest
  | [] => []

/-- String form of `substExtMp4`. -/
def pctFormatExt (s : String) : String := ⟨substExtMp4 s.toList⟩

/-- Lookup in the ledger, Python `video_url in self.downloaded_files` /
`self.downloaded_files[video_url]`. -/
def ledgerLookup : List (String × String) → String → Option String
  | [], _ => none
  | (k, v) :: rest, key => if k = key then some v else ledgerLookup rest key

/-- Insertion `self.downloaded_files[video_url] = output_file_path`
(line 47): replace the binding if the key is present, else append,
matching Python dict update with insertion order. -/
def ledgerInsert : List (String × String) → String → String → List (String × String)
  | [], key, v => [(key, v)]
  | (k, v') :: rest, key, v =>
      if k = key then (k, v) :: rest else (k, v') :: ledgerInsert rest key v

/-- What the extraction engine does when `ydl.download([video_url])` runs
(line 330): finish normally, raise `DownloadCancelled` (the progress hook
does this when the stop flag is observed), or raise some other
exception. -/
inductive EngineBehavior where
  | ok
  | cancelled
  | raisesErr (msg : String)
deriving DecidableEq, Repr

/-- Observable result of one `download_video` call: the ledger afterwards,
whether the engine was invoked, and whether an exception propagated to the
caller. -/
structure DVResult where
  downloaded_files : List (String × String)
  engineInvoked : Bool
  raised : Bool
deriving DecidableEq, Repr

/-- The control flow of `YTDownloadManager.download_video`
(lines 160-338): compute `output_file_path`, skip if already recorded or
the file exists, otherwise invoke the engine; swallow `DownloadCancelled`
and fall through to `save_downloaded_file`, re-raise anything else before
the ledger write. -/
def download_video (downloaded_files : List (String × String))
    (video_url output_template : String) (outputFileExists : Bool)
    (engine : EngineBehavior) : DVResult :=
  let output_file_path := pctFormatExt output_template
  if (ledgerLookup downloaded_files video_url).isSome || outputFileExists then
    { downloaded_files := downloaded_files, engineInvoked := false, raised := false }
  else
    match engine with
    | .ok =>
        { downloaded_files := ledgerInsert downloaded_files video_url output_file_path,
          engineInvoked := true, raised := false }
    | .cancelled =>
        { downloaded_files := ledgerInsert downloaded_files video_url output_file_path,
          engineInvoked := true, raised := false }
    | .raisesErr _ =>
        { downloaded_files := downloaded_files, engineInvoked := true, raised := true }

/-- Looking a key up right after inserting it finds the inserted value. -/
theorem ledgerLookup_ledgerInsert (l : List (String × String)) (k v : String) :
    ledgerLookup (ledgerInsert l k v) k = some v := by
  induction l with
  | nil => simp [ledgerInsert, ledgerLookup]
  | cons hd tl ih =>
    obtain ⟨k', v'⟩ := hd
    by_cases hk : k' = k
    · simp [ledgerInsert, ledgerLookup, hk]
    · simp [ledgerInsert, ledgerLookup, hk, ih]

/-! ### Claims about the executor's ledger -/

/-- C3 is violated on the cancellation path: an engine error leaves the
ledger unchanged (the exception is re-raised before `save_downloaded_file`
runs), but an engine-reported cancellation is swallowed on line 331 and
control falls through to `save_downloaded_file`, so the URL is appended to
the ledger even though nothing was downloaded.  The second conjunct
evaluates the code on a fresh ledger with a cancelled engine run. -/
theorem download_video_cancel_writes_ledger :
    (∀ (l : List (String × String)) (u t msg : String) (fe : Bool),
        (download_video l u t fe (.raisesErr msg)).downloaded_files = l) ∧
    (download_video [] "https://v" "/out/title.%(ext)s" false .cancelled).downloaded_files
      = [("https://v", "/out/title.mp4")] := by
  constructor
  · intro l u t msg fe
    cases hb : (ledgerLookup l u).isSome || fe <;> simp [download_video, hb]
  · decide

/-- C10.  If a URL is not recorded in the ledger and the output file does
not exist, the first `download_video` call invokes the engine; a second
call with the same URL and the resulting (otherwise unchanged) ledger
skips immediately — it does not invoke the engine and leaves the ledger
exactly as it was, whatever the engine would have done and whether or not
the file now exists. -/
theorem download_video_skip_second (l : List (String × String)) (url tmpl : String)
    (h : ledgerLookup l url = none) :
    (download_video l url tmpl false .ok).engineInvoked = true ∧
    ∀ (tmpl2 : String) (fe : Bool) (e : EngineBehavior),
      (download_video (download_video l url tmpl false .ok).downloaded_files
          url tmpl2 fe e).engineInvoked = false ∧
      (download_video (download_video l url tmpl false .ok).downloaded_files
          url tmpl2 fe e).downloaded_files
        = (download_video l url tmpl false .ok).downloaded_files := by
  have h1 : download_video l url tmpl false .ok
      = { downloaded_files := ledgerInsert l url (pctFormatExt tmpl),
          engineInvoked := true, raised := false } := by
    simp [download_video, h]
  refine ⟨by rw [h1], ?_⟩
  intro tmpl2 fe e
  rw [h1]
  simp [download_video, ledgerLookup_ledgerInsert]

/-- Witness for C10 at a concrete ledger, URL and template. -/
theorem download_video_skip_second_witness :
    (download_video (download_video [] "u" "t.%(ext)s" false .ok).downloaded_files
        "u" "t2.%(ext)s" false .ok).engineInvoked = false :=
  ((download_video_skip_second [] "u" "t.%(ext)s" rfl).2 "t2.%(ext)s" false .ok).1

/-! ## URL resolution (`download_thread.py`, `DownloadThread.run` step 1,
lines 119-178)

Flat extraction returns an "info dict"; the code reads only its `_type`
(defaulting to `"video"`), `webpage_url`, `url` and `entries` keys, so we
model exactly those.  Entries of a playlist may themselves be arbitrary
info dicts (a playlist-of-playlists), which the type makes representable:
`entries` holds optional nested dicts, `none` standing for Python `None`
(a private or inaccessible entry). -/

/-- An extraction-engine info dict, restricted to the keys the resolver
reads. -/
inductive InfoDict where
  | mk (itype : Option String) (webpage_url : Option String)
       (url : Option String) (entries : List (Option InfoDict))

/-- The `_type` key. -/
def InfoDict.itype : InfoDict → Option String
  | .mk t _ _ _ => t

/-- The `webpage_url` key. -/
def InfoDict.webpage_url : InfoDict → Option String
  | .mk _ w _ _ => w

/-- The `url` key. -/
def InfoDict.url : InfoDict → Option String
  | .mk _ _ u _ => u

/-- The `entries` key. -/
def InfoDict.entries : InfoDict → List (Option InfoDict)
  | .mk _ _ _ es => es

/-- What `ydl_flat.extract_info(url, download=False)` does for a raw URL
(line 146): return `None`, raise, or return an info dict. -/
inductive FetchResult where
  | missing
  | raises (msg : String)
  | found (d : InfoDict)

/-- The URL taken for one non-null playlist entry (line 164):
`entry.get('webpage_url', entry.get('url', 'Unknown URL'))`.  Note that
the entry's own `_type` is never consulted. -/
def entryVideoURL (d : InfoDict) : String :=
  d.webpage_url.getD (d.url.getD "Unknown URL")

/-- The `for entry in entries` loop (lines 158-165): a `None` entry is
recorded as a private-or-inaccessible failure under `'Unknown URL'`; any
other entry contributes `entryVideoURL` to `all_video_urls`.  Returns the
appended video URLs and the appended failure records, each in entry
order. -/
def classifyEntries : List (Option InfoDict) → List String × List (String × String)
  | [] => ([], [])
  | none :: rest =>
      let r := classifyEntries rest
      (r.1, ("Unknown URL", "Private or inaccessible video.") :: r.2)
  | some e :: rest =>
      let r := classifyEntries rest
      (entryVideoURL e :: r.1, r.2)

/-- Classification of one successfully fetched info dict
(lines 153-171): playlists contribute their entries, videos their
`webpage_url`, anything else a single unhandled-type failure. -/
def extractFromInfo (url : String) (d : InfoDict) : List String × List (String × String) :=
  let t := d.itype.getD "video"
  if t = "playlist" then classifyEntries d.entries
  else if t = "video" then ([d.webpage_url.getD "Unknown URL"], [])
  else ([], [(url, "Unhandled type: " ++ t)])

/-- The raw-URL loop of step 1 (lines 123-175): poll the stop flag at the
top of each iteration (index `i`), fetch flat metadata, and accumulate
video URLs and failures in order. -/
def resolveStep (fetch : String → FetchResult) (stopped : Nat → Bool) :
    List String → Nat → List String × List (String × String) →
    List String × List (String × String)
  | [], _, acc => acc
  | url :: rest, i, acc =>
    if stopped i then acc
    else
      match fetch url with
      | .missing =>
          resolveStep fetch stopped rest (i + 1)
            (acc.1, acc.2 ++ [(url, "No metadata found.")])
      | .raises m =>
          resolveStep fetch stopped rest (i + 1) (acc.1, acc.2 ++ [(url, m)])
      | .found d =>
          let r := extractFromInfo url d
          resolveStep fetch stopped rest (i + 1) (acc.1 ++ r.1, acc.2 ++ r.2)

/-- Resolution of a whole raw-URL list; `.1` is `all_video_urls`, whose
length becomes `total_items` on line 177, and `.2` is the portion of
`failed_urls` recorded during resolution. -/
def resolveURLs (urls : List String) (fetch : String → FetchResult)
    (stopped : Nat → Bool) : List String × List (String × String) :=
  resolveStep fetch stopped urls 0 ([], [])

/-- Entry classification keeps exactly the non-null entries, in order,
each mapped to its `entryVideoURL`. -/
theorem classifyEntries_fst (es : List (Option InfoDict)) :
    (classifyEntries es).1 = es.filterMap (Option.map entryVideoURL) := by
  induction es with
  | nil => rfl
  | cons e rest ih =>
    cases e <;> simp [classifyEntries, ih]

/-- Entry classification records one identical failure per null entry. -/
theorem classifyEntries_snd (es : List (Option InfoDict)) :
    (classifyEntries es).2
      = List.replicate (es.countP Option.isNone)
          ("Unknown URL", "Private or inaccessible video.") := by
  induction es with
  | nil => rfl
  | cons e rest ih =>
    cases e <;> simp [classifyEntries, ih, List.countP_cons, List.replicate_succ]

/-- Helper: the number of entry URLs kept equals the number of non-null
entries. -/
theorem length_filterMap_entryURL (es : List (Option InfoDict)) :
    (es.filterMap (Option.map entryVideoURL)).length = es.countP Option.isSome := by
  induction es with
  | nil => rfl
  | cons e rest ih => cases e <;> simp [ih, List.countP_cons]

/-- A concrete video entry. -/
def sampleVideo : InfoDict := .mk (some "video") (some "https://v") none []

/-- A playlist of five entries, the third of which is `None`. -/
def samplePlaylist5 : InfoDict :=
  .mk (some "playlist") none none
    [some sampleVideo, some sampleVideo, none, some sampleVideo, some sampleVideo]

/-! ### Claims about resolution -/

/-- C7.  For any playlist, every null entry is recorded as a failure with
reason `"Private or inaccessible video."` and excluded from the resolved
sequence, so `total_items` (the length of the resolved sequence) equals
the number of non-null entries; in particular the five-entry playlist
with one null entry resolves to four video URLs and exactly one such
failure. -/
theorem resolve_playlist_null_entries (u : String) (w uu : Option String)
    (es : List (Option InfoDict)) :
    (resolveURLs [u] (fun _ => .found (.mk (some "playlist") w uu es))
        (fun _ => false)).1.length = es.countP Option.isSome ∧
    (resolveURLs [u] (fun _ => .found (.mk (some "playlist") w uu es))
        (fun _ => false)).2
      = List.replicate (es.countP Option.isNone)
          ("Unknown URL", "Private or inaccessible video.") ∧
    (resolveURLs ["p"] (fun _ => .found samplePlaylist5) (fun _ => false)).1.length = 4 ∧
    (resolveURLs ["p"] (fun _ => .found samplePlaylist5) (fun _ => false)).2
      = [("Unknown URL", "Private or inaccessible video.")] := by
  have h : resolveURLs [u] (fun _ => .found (.mk (some "playlist") w uu es))
        (fun _ => false)
      = ((classifyEntries es).1, (classifyEntries es).2) := rfl
  refine ⟨?_, ?_, by decide, by decide⟩
  · rw [h]; simp [classifyEntries_fst, length_filterMap_entryURL]
  · rw [h]; simp [classifyEntries_snd]

/-- An ordinary video entry nested two levels down. -/
def nestedLeaf : InfoDict := .mk (some "video") (some "https://leaf") none []

/-- A playlist entry that is itself a playlist. -/
def childPlaylist : InfoDict :=
  .mk (some "playlist") (some "https://child-playlist") none [some nestedLeaf]

/-- A playlist whose single entry is `childPlaylist`: a
playlist-of-playlists. -/
def outerPlaylist : InfoDict := .mk (some "playlist") none none [some childPlaylist]

/-- Counterexample to C4: resolving a playlist-of-playlists puts the
child playlist's own URL into the resolved sequence as if it were a
video, and the actual video nested inside the child playlist never
appears — no recursive expansion happens. -/
theorem resolve_nested_playlist_counterexample :
    (resolveURLs ["https://outer"] (fun _ => .found outerPlaylist)
        (fun _ => false)).1 = ["https://child-playlist"] ∧
    "https://leaf" ∉ (resolveURLs ["https://outer"] (fun _ => .found outerPlaylist)
        (fun _ => false)).1 := by
  decide

/-- C4 as amended: the resolver never inspects a playlist entry's type.
Every non-null entry — child playlist or not — contributes exactly its
`webpage_url` (falling back to `url`, then `'Unknown URL'`) to the
resolved sequence, so child playlists are not expanded recursively and
their URLs are taken as if they were videos. -/
theorem resolve_playlist_entries_not_recursed (u : String) (w uu : Option String)
    (es : List (Option InfoDict)) :
    (resolveURLs [u] (fun _ => .found (.mk (some "playlist") w uu es))
        (fun _ => false)).1
      = es.filterMap (Option.map entryVideoURL) ∧
    (resolveURLs ["https://outer"] (fun _ => .found outerPlaylist)
        (fun _ => false)).1 = [entryVideoURL childPlaylist] := by
  have h : resolveURLs [u] (fun _ => .found (.mk (some "playlist") w uu es))
        (fun _ => false)
      = ((classifyEntries es).1, (classifyEntries es).2) := rfl
  refine ⟨?_, by decide⟩
  rw [h]; simp [classifyEntries_fst]

/-! ## Batch download loop (`download_thread.py`, `DownloadThread.run`
step 2 and postlude, lines 177-247)

The loop iterates `all_video_urls` with 1-based display indices, polls
`self._is_stopped` at the top of each iteration (line 183) and again
inside `process_single_video` before the engine is invoked (line 287).
The flag is set by another thread, so we model each poll site as a
function of the iteration index: `stopped i` is the value read at the top
of iteration `i` (0-based) and `stopMid i` the value read at line 287;
`stopEnd` is the value read at line 242 after the loop.  What the network
does in iteration `i` is given by `meta i` (the full-metadata fetch of
lines 207-216) and `engine i` (the `download_manager.download_video` call
of line 351).

Two ghost fields instrument the state: `engine_calls` records the
iterations in which `download_manager.download_video` was invoked, and
`completed_trace` records the value of `completed_items` at the end of
each executed iteration. -/

/-- What the full-metadata fetch of iteration `i` does: return `None`
(line 211), raise (caught on line 222), or return an info dict. -/
inductive MetaOutcome where
  | missing
  | raises (msg : String)
  | found
deriving DecidableEq, Repr

/-- What the engine does when invoked in iteration `i`: finish (this also
covers a swallowed `DownloadCancelled`, see `download_video`) or raise an
error that `process_single_video` records (lines 364-374). -/
inductive EngineOutcome where
  | ok
  | raises (msg : String)
deriving DecidableEq, Repr

/-- Mutable state of the loop, plus ghost instrumentation. -/
structure RunState where
  completed_items : Nat
  download_counter : Nat
  failed_urls : List (String × String)
  statuses : List String
  engine_calls : List Nat
  completed_trace : List Nat
deriving DecidableEq, Repr

/-- The state at the start of step 2 (`completed_items` and
`download_counter` are zero, nothing emitted yet; resolution failures are
not tracked here). -/
def initRunState : RunState :=
  { completed_items := 0, download_counter := 0, failed_urls := [],
    statuses := [], engine_calls := [], completed_trace := [] }

/-- Ghost snapshot appended at the end of each executed iteration. -/
def snapshot (st : RunState) : RunState :=
  { st with completed_trace := st.completed_trace ++ [st.completed_items] }

/-- The status text of line 188, for display index `i` out of `total`. -/
def statusDownloading (i total : Nat) (url : String) : String :=
  "Downloading video " ++ toString i ++ "/" ++ toString total ++ ": " ++ url

/-- What `str(e)` yields for the bare `DownloadCancelled()` raised on
line 288 (yt-dlp's `YoutubeDLError.__init__` defaults the message to the
class name). -/
def downloadCancelledText : String := "DownloadCancelled"

/-- The failure-reason normalization of lines 366-370: a message
containing `"Private video"` becomes the fixed access-denied reason. -/
def normalizeDownloadError (m : String) : String :=
  if 2 ≤ (m.splitOn "Private video").length then "Private video - access denied." else m

/-- One pass of the `for i, video_url in enumerate(all_video_urls, 1)`
loop (lines 181-235) over the remaining URLs, starting at 0-based
iteration index `i`.  Every path through an executed iteration increments
`completed_items` by one; the `continue` on line 216 skips the
`download_counter` increment; the cool-off sleep has no state effect and
is not modelled. -/
def runLoop (total : Nat) (meta : Nat → MetaOutcome) (engine : Nat → EngineOutcome)
    (stopped stopMid : Nat → Bool) :
    List String → Nat → RunState → RunState
  | [], _, st => st
  | url :: rest, i, st =>
    if stopped i then
      { st with statuses := st.statuses ++ ["Download stopped by user."] }
    else
      let st1 := { st with
        statuses := st.statuses ++ [statusDownloading (i + 1) total url] }
      match meta i with
      | .missing =>
          runLoop total meta engine stopped stopMid rest (i + 1)
            (snapshot { st1 with
              failed_urls := st1.failed_urls ++ [(url, "Private or inaccessible video.")],
              completed_items := st1.completed_items + 1 })
      | .raises m =>
          runLoop total meta engine stopped stopMid rest (i + 1)
            (snapshot { st1 with
              failed_urls := st1.failed_urls ++ [(url, m)],
              completed_items := st1.completed_items + 1,
              download_counter := st1.download_counter + 1 })
      | .found =>
          if stopMid i then
            runLoop total meta engine stopped stopMid rest (i + 1)
              (snapshot { st1 with
                failed_urls := st1.failed_urls ++ [(url, downloadCancelledText)],
                completed_items := st1.completed_items + 1,
                download_counter := st1.download_counter + 1 })
          else
            match engine i with
            | .ok =>
                runLoop total meta engine stopped stopMid rest (i + 1)
                  (snapshot { st1 with
                    engine_calls := st1.engine_calls ++ [i],
                    completed_items := st1.completed_items + 1,
                    download_counter := st1.download_counter + 1 })
            | .raises m =>
                runLoop total meta engine stopped stopMid rest (i + 1)
                  (snapshot { st1 with
                    engine_calls := st1.engine_calls ++ [i],
                    failed_urls := st1.failed_urls ++ [(url, normalizeDownloadError m)],
                    completed_items := st1.completed_items + 1,
                    download_counter := st1.download_counter + 1 })

/-- The postlude of `run` (lines 237-247): the failed-downloads signal
carries `failed_urls` and is not a status; if the stop flag reads true at
line 242 a stop status is emitted; then — unconditionally — the
`"Download complete"` status is emitted last. -/
def runFinish (stopEnd : Bool) (st : RunState) : RunState :=
  let st1 := if stopEnd
    then { st with statuses := st.statuses ++ ["Download stopped by user."] }
    else st
  { st1 with statuses := st1.statuses ++ ["Download complete"] }

/-- Step 2 of `run` end to end: `total_items` is fixed to the length of
`all_video_urls` before the loop starts (line 177). -/
def processVideos (all_video_urls : List String) (meta : Nat → MetaOutcome)
    (engine : Nat → EngineOutcome) (stopped stopMid : Nat → Bool)
    (stopEnd : Bool) : RunState :=
  runFinish stopEnd
    (runLoop all_video_urls.length meta engine stopped stopMid all_video_urls 0 initRunState)

/-- Any iteration recorded as an engine call read the stop flag as false
at both poll sites of that iteration. -/
theorem runLoop_engine_calls_spec (total : Nat) (meta : Nat → MetaOutcome)
    (engine : Nat → EngineOutcome) (stopped stopMid : Nat → Bool) :
    ∀ (vids : List String) (i : Nat) (st : RunState) (j : Nat),
      j ∈ (runLoop total meta engine stopped stopMid vids i st).engine_calls →
      j ∈ st.engine_calls ∨ (i ≤ j ∧ stopped j = false ∧ stopMid j = false) := by
  intro vids
  induction vids with
  | nil => intro i st j h; exact Or.inl h
  | cons url rest ih =>
    intro i st j h
    cases hstop : stopped i with
    | true =>
      simp only [runLoop, hstop, if_true] at h
      exact Or.inl h
    | false =>
      simp only [runLoop, hstop, Bool.false_eq_true, if_false] at h
      cases hm : meta i with
      | missing =>
        rw [hm] at h
        rcases ih (i + 1) _ j h with h' | ⟨hij, hs, hsm⟩
        · exact Or.inl h'
        · exact Or.inr ⟨by omega, hs, hsm⟩
      | raises m =>
        rw [hm] at h
        rcases ih (i + 1) _ j h with h' | ⟨hij, hs, hsm⟩
        · exact Or.inl h'
        · exact Or.inr ⟨by omega, hs, hsm⟩
      | found =>
        rw [hm] at h
        cases hsm0 : stopMid i with
        | true =>
          simp only [hsm0, if_true] at h
          rcases ih (i + 1) _ j h with h' | ⟨hij, hs, hsm⟩
          · exact Or.inl h'
          · exact Or.inr ⟨by omega, hs, hsm⟩
        | false =>
          simp only [hsm0, Bool.false_eq_true, if_false] at h
          cases he : engine i with
          | ok =>
            rw [he] at h
            rcases ih (i + 1) _ j h with h' | ⟨hij, hs, hsm⟩
            · rcases List.mem_append.mp h' with h'' | h''
              · exact Or.inl h''
              · have : j = i := by simpa using h''
                subst this
                exact Or.inr ⟨le_refl j, hstop, hsm0⟩
            · exact Or.inr ⟨by omega, hs, hsm⟩
          | raises m =>
            rw [he] at h
            rcases ih (i + 1) _ j h with h' | ⟨hij, hs, hsm⟩
            · rcases List.mem_append.mp h' with h'' | h''
              · exact Or.inl h''
              · have : j = i := by simpa using h''
                subst this
                exact Or.inr ⟨le_refl j, hstop, hsm0⟩
            · exact Or.inr ⟨by omega, hs, hsm⟩

/-- Every executed iteration increments `completed_items` by exactly one,
so the loop adds a contiguous run of counter values to the ghost trace,
one per processed URL. -/
theorem runLoop_trace_spec (total : Nat) (meta : Nat → MetaOutcome)
    (engine : Nat → EngineOutcome) (stopped stopMid : Nat → Bool) :
    ∀ (vids : List String) (i : Nat) (st : RunState),
      ∃ m, m ≤ vids.length ∧
        (runLoop total meta engine stopped stopMid vids i st).completed_items
          = st.completed_items + m ∧
        (runLoop total meta engine stopped stopMid vids i st).completed_trace
          = st.completed_trace ++ List.range' (st.completed_items + 1) m := by
  intro vids
  induction vids with
  | nil => intro i st; exact ⟨0, by simp [runLoop]⟩
  | cons url rest ih =>
    intro i st
    cases hstop : stopped i with
    | true => exact ⟨0, by simp [runLoop, hstop]⟩
    | false =>
      have step :
          ∀ st' : RunState,
            st'.completed_items = st.completed_items + 1 →
            st'.completed_trace = st.completed_trace →
            ∃ m, m ≤ (url :: rest).length ∧
              (runLoop total meta engine stopped stopMid rest (i + 1)
                  (snapshot st')).completed_items
                = st.completed_items + m ∧
              (runLoop total meta engine stopped stopMid rest (i + 1)
                  (snapshot st')).completed_trace
                = st.completed_trace ++ List.range' (st.completed_items + 1) m := by
        intro st' hc ht
        obtain ⟨m', hm', hc', ht'⟩ := ih (i + 1) (snapshot st')
        refine ⟨m' + 1, by simpa using Nat.succ_le_succ hm', ?_, ?_⟩
        · rw [hc']
          simp [snapshot, hc]
          omega
        · rw [ht']
          simp [snapshot, hc, ht, List.range'_succ]
      simp only [runLoop, hstop, Bool.false_eq_true, if_false]
      cases hm : meta i with
      | missing => exact step _ rfl rfl
      | raises m => exact step _ rfl rfl
      | found =>
        cases hsm : stopMid i with
        | true => simp only [hsm, if_true]; exact step _ rfl rfl
        | false =>
          simp only [hsm, Bool.false_eq_true, if_false]
          cases he : engine i with
          | ok => exact step _ rfl rfl
          | raises m => exact step _ rfl rfl

/-- The postlude never touches `completed_items`. -/
theorem runFinish_completed (b : Bool) (st : RunState) :
    (runFinish b st).completed_items = st.completed_items := by cases b <;> rfl

/-- The postlude never touches the ghost trace. -/
theorem runFinish_trace (b : Bool) (st : RunState) :
    (runFinish b st).completed_trace = st.completed_trace := by cases b <;> rfl

/-- The postlude never invokes the engine. -/
theorem runFinish_engine_calls (b : Bool) (st : RunState) :
    (runFinish b st).engine_calls = st.engine_calls := by cases b <;> rfl

/-- Statuses emitted by the postlude: the optional stop status, then,
always last, the completion status. -/
theorem runFinish_statuses (b : Bool) (st : RunState) :
    (runFinish b st).statuses
      = (if b then st.statuses ++ ["Download stopped by user."] else st.statuses)
          ++ ["Download complete"] := by cases b <;> rfl

/-- A run of consecutive naturals is a non-decreasing chain from its
starting point. -/
theorem chain_le_cons_range' : ∀ (n s : Nat),
    List.Chain' (fun a b => a ≤ b) (s :: List.range' (s + 1) n) := by
  intro n
  induction n with
  | zero => intro s; simp
  | succ k ih =>
    intro s
    rw [List.range'_succ]
    exact List.chain'_cons.mpr ⟨Nat.le_succ s, ih (s + 1)⟩

/-- The last element of a list extended by a singleton. -/
theorem getLast?_append_singleton {α : Type} (l : List α) (a : α) :
    (l ++ [a]).getLast? = some a := by
  exact List.getLast?_concat _

/-! ### Claims about the batch loop -/

/-- C9.  With `total_items` fixed to the resolved-sequence length before
the loop starts, the successive values of `completed_items` form the
contiguous run `1, 2, …, m` for some `m ≤ total_items` — so the counter is
non-decreasing along the run and every reachable value lies between 0 and
`total_items`, whatever the flag schedules and the network do. -/
theorem run_completed_monotone_bounded (urls : List String)
    (meta : Nat → MetaOutcome) (engine : Nat → EngineOutcome)
    (stopped stopMid : Nat → Bool) (stopEnd : Bool) :
    (processVideos urls meta engine stopped stopMid stopEnd).completed_trace
      = List.range' 1
          (processVideos urls meta engine stopped stopMid stopEnd).completed_items ∧
    (processVideos urls meta engine stopped stopMid stopEnd).completed_items
      ≤ urls.length ∧
    List.Chain' (fun a b => a ≤ b)
      (0 :: (processVideos urls meta engine stopped stopMid stopEnd).completed_trace) := by
  obtain ⟨m, hm, hc, ht⟩ :=
    runLoop_trace_spec urls.length meta engine stopped stopMid urls 0 initRunState
  have h1 : (processVideos urls meta engine stopped stopMid stopEnd).completed_items = m := by
    rw [processVideos, runFinish_completed, hc]; simp [initRunState]
  have h2 : (processVideos urls meta engine stopped stopMid stopEnd).completed_trace
      = List.range' 1 m := by
    rw [processVideos, runFinish_trace, ht]; simp [initRunState]
  refine ⟨by rw [h1, h2], by rw [h1]; exact hm, ?_⟩
  rw [h2]
  exact chain_le_cons_range' m 0

/-- C8.  If the stop flag is monotone (once set it stays set) and reads
true at some poll index `k`, then no iteration from `k` on ever invokes
the download engine: the top-of-iteration check terminates the loop before
any later item starts. -/
theorem run_no_engine_after_stop (urls : List String)
    (meta : Nat → MetaOutcome) (engine : Nat → EngineOutcome)
    (stopped stopMid : Nat → Bool) (stopEnd : Bool)
    (mono : ∀ a b : Nat, a ≤ b → stopped a = true → stopped b = true)
    (k : Nat) (hk : stopped k = true) :
    ∀ j, k ≤ j →
      j ∉ (processVideos urls meta engine stopped stopMid stopEnd).engine_calls := by
  intro j hkj hmem
  rw [processVideos, runFinish_engine_calls] at hmem
  rcases runLoop_engine_calls_spec urls.length meta engine stopped stopMid
      urls 0 initRunState j hmem with h | ⟨_, hs, _⟩
  · simp [initRunState] at h
  · rw [mono k j hkj hk] at hs
    exact Bool.true_eq_false.mp hs

/-- Three-item batch used to witness C8. -/
def w8urls : List String := ["u1", "u2", "u3"]

/-- Witness for C8: flag set from iteration 1 on, so iteration 2 never
invokes the engine. -/
theorem run_no_engine_after_stop_witness :
    2 ∉ (processVideos w8urls (fun _ => .found) (fun _ => .ok)
        (fun i => decide (1 ≤ i)) (fun _ => false) true).engine_calls :=
  run_no_engine_after_stop w8urls (fun _ => .found) (fun _ => .ok)
    (fun i => decide (1 ≤ i)) (fun _ => false) true
    (fun a b hab ha => by simp only [decide_eq_true_eq] at ha ⊢; omega)
    1 (by decide) 2 (by decide)

/-- The ten-item batch of the cancellation scenario. -/
def c2urls : List String :=
  ["u1", "u2", "u3", "u4", "u5", "u6", "u7", "u8", "u9", "u10"]

/-- The scenario run: the stop flag becomes true after item 2 starts
(the top-of-loop poll reads true from iteration index 2 on) and remains
set through the postlude. -/
def c2run : RunState :=
  processVideos c2urls (fun _ => .found) (fun _ => .ok)
    (fun i => decide (2 ≤ i)) (fun _ => false) true

/-- Counterexample to C2: in the scenario run — stop requested after item
2 of 10 — items 3–10 indeed never invoke the engine, but the final status
emitted is `"Download complete"`, not `"Download stopped by user."`:
line 246 of `download_thread.py` emits the completion status
unconditionally, after the stop status of line 243. -/
theorem run_stop_status_counterexample :
    c2run.statuses.getLast? = some "Download complete" ∧
    c2run.statuses.getLast? ≠ some "Download stopped by user." ∧
    c2run.engine_calls = [0, 1] := by decide

/-- C2 as amended: when the monotone stop flag reads true from iteration
`j` on, no iteration from `j` on invokes the engine and the status
`"Download stopped by user."` is emitted — but the very last status of the
batch is still the unconditional `"Download complete"`. -/
theorem run_stop_amended (urls : List String)
    (meta : Nat → MetaOutcome) (engine : Nat → EngineOutcome)
    (stopped stopMid : Nat → Bool)
    (mono : ∀ a b : Nat, a ≤ b → stopped a = true → stopped b = true)
    (j : Nat) (hj : stopped j = true) :
    (∀ i, j ≤ i →
      i ∉ (processVideos urls meta engine stopped stopMid true).engine_calls) ∧
    "Download stopped by user."
      ∈ (processVideos urls meta engine stopped stopMid true).statuses ∧
    (processVideos urls meta engine stopped stopMid true).statuses.getLast?
      = some "Download complete" := by
  refine ⟨?_, ?_, ?_⟩
  · intro i hij hmem
    rw [processVideos, runFinish_engine_calls] at hmem
    rcases runLoop_engine_calls_spec urls.length meta engine stopped stopMid
        urls 0 initRunState i hmem with h | ⟨_, hs, _⟩
    · simp [initRunState] at h
    · rw [mono j i hij hj] at hs
      exact Bool.true_eq_false.mp hs
  · rw [processVideos, runFinish_statuses]
    simp
  · rw [processVideos, runFinish_statuses]
    exact getLast?_append_singleton _ _

/-- Witness for the amended C2 on the ten-item scenario: item 5 never
invokes the engine, the stop status is emitted, and the final status is
the completion status. -/
theorem run_stop_amended_witness :
    5 ∉ (processVideos c2urls (fun _ => .found) (fun _ => .ok)
        (fun i => decide (2 ≤ i)) (fun _ => false) true).engine_calls ∧
    "Download stopped by user."
      ∈ (processVideos c2urls (fun _ => .found) (fun _ => .ok)
          (fun i => decide (2 ≤ i)) (fun _ => false) true).statuses ∧
    (processVideos c2urls (fun _ => .found) (fun _ => .ok)
        (fun i => decide (2 ≤ i)) (fun _ => false) true).statuses.getLast?
      = some "Download complete" := by
  have h := run_stop_amended c2urls (fun _ => .found) (fun _ => .ok)
    (fun i => decide (2 ≤ i)) (fun _ => false)
    (fun a b hab ha => by simp only [decide_eq_true_eq] at ha ⊢; omega) 2 (by decide)
  exact ⟨h.1 5 (by decide), h.2.1, h.2.2⟩
